import Mathlib

/-!
# SafeLayer: a shallow embedding of the guard pipeline and policy engine

This file embeds the core of the SafeLayer repository
(`safelayer/manager.py`, `safelayer/guards/{base,pii,tone,tts}.py`,
`safelayer/policy.py`) into Lean 4 and proves/refutes the specified
properties.

Modelling conventions:
* Python strings are Lean `String`s (operations work on `String.data`,
  the list of characters); `len(text)` is the character count.
* Python `re` is embedded by executable matchers specialised to the
  concrete patterns the source compiles (`EMAIL_RE`, `PHONE_RE`,
  `PROF_RE`, and the two TTS patterns), with Python's leftmost/greedy
  match semantics.  The character classes `\w` and `\d` are modelled on
  their ASCII subsets (all inputs the theorems evaluate are ASCII except
  where the `[^\x00-\x7F]` class itself is at stake, which is modelled
  exactly).
* Python floats that hold policy thresholds are modelled as `Rat`; the
  program only compares them and stores them, and every literal involved
  is an exact decimal.
* `audit_log` appends one record per finding to a log file; the pipeline
  is modelled as returning the trace of emitted events (audit entries,
  `explain_action` calls, mask applications).  The wall-clock timestamp
  field is not modelled.
* The `presidio_analyzer` backend is not part of the repository, so
  `PRESIDIO = False` and `PIIGuard.check` takes the regex fallback
  branch, which is what is embedded.
-/

namespace SafeLayer

/-! ## Character classes (ASCII models of the classes used by the patterns) -/

/-- ASCII model of Python regex `\w` (word character). -/
def isWordChar (c : Char) : Bool := c.isAlphanum || c == '_'

/-- Character class `[\w\.-]` used by `EMAIL_RE`. -/
def isEmailChar (c : Char) : Bool := isWordChar c || c == '.' || c == '-'

/-- ASCII model of Python regex `\d`. -/
def isDigitChar (c : Char) : Bool := c.isDigit

/-- Exact model of the class `[^\x00-\x7F]` from `tts.py`. -/
def isNonAsciiChar (c : Char) : Bool := decide (128 ≤ c.toNat)

/-- Length of the longest prefix all of whose characters satisfy `p`
(the greedy match of `p*`). -/
def takeRun (p : Char → Bool) : List Char → Nat
  | [] => 0
  | c :: cs => if p c then takeRun p cs + 1 else 0

/-- A matcher attempts a regex match anchored at the head of the list.
`prev` is the character immediately before the current position (for
word boundaries `\b`); the result is the length of the (greedy) match,
`none` when the pattern does not match here.  All matchers used in this
file produce matches of positive length. -/
abbrev Matcher := Option Char → List Char → Option Nat

/-- Python's `\b` before the current position, for patterns whose first
character is a word character. -/
def boundaryBefore : Option Char → Bool
  | none => true
  | some c => !isWordChar c

/-- Python's `\b` after a word character, looking at the remaining text. -/
def boundaryAfter : List Char → Bool
  | [] => true
  | c :: _ => !isWordChar c

/-! ## `EMAIL_RE = [\w\.-]+@[\w\.-]+\.\w+` -/

/-- Is the head of the list a word character? -/
def headIsWord : List Char → Bool
  | [] => false
  | c :: _ => isWordChar c

/-- Index of the last `'.'` in the list that is directly followed by a
word character (the greedy backtracking target for `\.\w+` inside the
run after the `@`). -/
def lastGoodDot : List Char → Option Nat
  | [] => none
  | c :: rest =>
    match (lastGoodDot rest).map (· + 1) with
    | some i => some i
    | none => if c == '.' && headIsWord rest then some 0 else none

/-- Greedy match of `[\w\.-]+\.\w+` against `runB`, the maximal run of
email characters following the `@`: pick the last viable dot, then the
greedy `\w+` after it.  The dot must leave a nonempty first group. -/
def emailTail (runB : List Char) : Option Nat :=
  match lastGoodDot runB with
  | some i =>
    if 1 ≤ i then some (i + 1 + takeRun isWordChar (runB.drop (i + 1))) else none
  | none => none

/-- The anchored matcher for `EMAIL_RE`. -/
def emailMatcher : Matcher := fun _ cs =>
  let a := takeRun isEmailChar cs
  if a == 0 then none
  else
    match cs.drop a with
    | '@' :: rest => (emailTail (rest.takeWhile isEmailChar)).map (fun t => a + 1 + t)
    | _ => none

/-! ## `PHONE_RE = \b\d{10}\b` -/

def phoneMatcher : Matcher := fun prev cs =>
  if boundaryBefore prev && (cs.take 10).length == 10 &&
     (cs.take 10).all isDigitChar && boundaryAfter (cs.drop 10)
  then some 10 else none

/-! ## `PROF_RE = \b(damn|crap|shit|fuck)\b` with `re.I` -/

/-- Is `w` one of the four case-folded denylist words?  (They all have
four letters, so at a given position at most one alternative can match
and the alternation order of the compiled set is irrelevant.) -/
def isProfWord (w : List Char) : Bool :=
  w == "damn".data || w == "crap".data || w == "shit".data || w == "fuck".data

def toneMatcher : Matcher := fun prev cs =>
  if boundaryBefore prev && isProfWord ((cs.take 4).map Char.toLower) &&
     boundaryAfter (cs.drop 4)
  then some 4 else none

/-! ## TTS patterns: `<[^>]*script` (case-insensitive in `check`,
case-sensitive in `mask`) and `[^\x00-\x7F]+` -/

/-- Does the list start with the literal `script`, up to case when `ci`? -/
def startsScript (ci : Bool) (cs : List Char) : Bool :=
  ((cs.take 6).map (fun c => if ci then c.toLower else c)) == "script".data

/-- Greedy match of `[^>]*script` anchored here: prefer consuming the
current (non-`'>'`) character into `[^>]*` and matching deeper (Python's
greedy backtracking), otherwise require the literal `script` here. -/
def ttsTail (ci : Bool) : List Char → Option Nat
  | [] => none
  | c :: rest =>
    match (if c == '>' then none else (ttsTail ci rest).map (· + 1)) with
    | some n => some n
    | none => if startsScript ci (c :: rest) then some 6 else none

def ttsScriptMatcher (ci : Bool) : Matcher := fun _ cs =>
  match cs with
  | '<' :: rest => (ttsTail ci rest).map (· + 1)
  | _ => none

def nonAsciiMatcher : Matcher := fun _ cs =>
  match takeRun isNonAsciiChar cs with
  | 0 => none
  | n + 1 => some (n + 1)

/-! ## `finditer` and `sub`

Python's `re.finditer` scans positions left to right; at each position
it attempts the (leftmost-greedy) anchored match, emits the span and
resumes after the match, otherwise advances one character.  `re.sub`
replaces exactly the spans `finditer` yields.  Zero-length results from
a matcher are treated as failures; none of the matchers above can
produce them. -/

/-- Scanner for `finditer`.  `skip` is the number of characters still to
be consumed inside the most recent match (positions inside a match are
not probed, and `prev` always holds the character just before the
current position). -/
def finditerAux (m : Matcher) : Nat → Option Char → List Char → Nat → List (Nat × Nat)
  | _, _, [], _ => []
  | skip + 1, _, c :: rest, pos => finditerAux m skip (some c) rest (pos + 1)
  | 0, prev, c :: rest, pos =>
    match m prev (c :: rest) with
    | some (n + 1) => (pos, pos + (n + 1)) :: finditerAux m n (some c) rest (pos + 1)
    | _ => finditerAux m 0 (some c) rest (pos + 1)

/-- Scanner for `sub`: characters inside a match are dropped, the
replacement is emitted at the match's start. -/
def subAux (m : Matcher) (repl : List Char) : Nat → Option Char → List Char → List Char
  | _, _, [] => []
  | skip + 1, _, c :: rest => subAux m repl skip (some c) rest
  | 0, prev, c :: rest =>
    match m prev (c :: rest) with
    | some (n + 1) => repl ++ subAux m repl n (some c) rest
    | _ => c :: subAux m repl 0 (some c) rest

def reFinditer (m : Matcher) (s : String) : List (Nat × Nat) :=
  finditerAux m 0 none s.data 0

def reSub (m : Matcher) (repl : String) (s : String) : String :=
  ⟨subAux m repl.data 0 none s.data⟩

def reSearch (m : Matcher) (s : String) : Bool :=
  !(reFinditer m s).isEmpty

/-! ## Findings and concrete guards -/

/-- One element of the list a guard's `check` returns.  The Python
findings are dicts; the keys actually produced are `entity`,
`start`/`end` (PII and Tone guards only), `pattern` (TTS guard only)
and `explanation`.  Absent keys are `none`. -/
structure Finding where
  entity : String
  span : Option (Nat × Nat)
  pattern : Option String
  explanation : String
deriving DecidableEq, Repr

/-- Python `text[a:b]` (for `m.group()`). -/
def strSlice (s : String) (a b : Nat) : String := ⟨(s.data.drop a).take (b - a)⟩

/-- Rendering of a Python span tuple `(a, b)` as `str` formats it. -/
def spanStr (a b : Nat) : String := "(" ++ toString a ++ ", " ++ toString b ++ ")"

namespace PIIGuard

/-- `PIIGuard.check`, regex branch (`PRESIDIO = False`): all email
matches, then all phone matches. -/
def check (t : String) : List Finding :=
  ((reFinditer emailMatcher t).map (fun se =>
    { entity := "email", span := some se, pattern := none,
      explanation := "EMAIL: " ++ strSlice t se.1 se.2 ++ " @ " ++ spanStr se.1 se.2 })) ++
  ((reFinditer phoneMatcher t).map (fun se =>
    { entity := "phone", span := some se, pattern := none,
      explanation := "PHONE: " ++ strSlice t se.1 se.2 ++ " @ " ++ spanStr se.1 se.2 }))

/-- The `PIIGuard.mask` *method* as written in the class body (email
substitution, then phone substitution).  Note that `PIIGuard.__init__`
stores its `mask` boolean parameter in `self.mask`, shadowing this
method on every instance. -/
def mask (t : String) : String :=
  reSub phoneMatcher "[PHONE MASKED]" (reSub emailMatcher "[EMAIL MASKED]" t)

end PIIGuard

namespace ToneGuard

/-- `ToneGuard.check`: one finding per profanity match.  The source file
`tone.py` is truncated inside the finding literal (after the `start`
key).  Modelled from the spec: a Finding carries entity kind, start/end
offsets of the match and a free-text explanation naming the matched
token. -/
def check (t : String) : List Finding :=
  (reFinditer toneMatcher t).map (fun se =>
    { entity := "profanity", span := some se, pattern := none,
      explanation := "Profanity: " ++ strSlice t se.1 se.2 })

/-- Modelled from the spec: `ToneGuard.mask` is missing from the
truncated `tone.py`; the spec and `tests/test_tone.py` say each
(case-insensitive, whole-word) denylist match is replaced by a
fixed-width placeholder of masking characters, `"****"`. -/
def mask (t : String) : String := reSub toneMatcher "****" t

end ToneGuard

namespace TTSGuard

def pattern0 : String := "<[^>]*script"

def pattern1 : String := "[^\\x00-\\x7F]+"

/-- `TTSGuard.check`: at most one finding per pattern, produced by
`re.search(pattern, text, re.I)`; the findings carry no offsets. -/
def check (t : String) : List Finding :=
  (if reSearch (ttsScriptMatcher true) t then
    [{ entity := "invalid_tts", span := none, pattern := some pattern0,
       explanation := "Invalid pattern matched: " ++ pattern0 }] else []) ++
  (if reSearch nonAsciiMatcher t then
    [{ entity := "invalid_tts", span := none, pattern := some pattern1,
       explanation := "Invalid pattern matched: " ++ pattern1 }] else [])

/-- `TTSGuard.mask`: strips pattern 0 (case-sensitively — `mask` passes
no `re.I` flag, unlike `check`), then pattern 1. -/
def mask (t : String) : String :=
  reSub nonAsciiMatcher "" (reSub (ttsScriptMatcher false) "" t)

end TTSGuard

/-! ## The guard objects and the orchestrator -/

/-- A concrete guard instance with its constructor arguments
(`PIIGuard(mask, explain)`, `ToneGuard(warn_only, explain)`,
`TTSGuard(explain)`). -/
inductive Guard where
  | pii (maskParam : Bool) (explainFlag : Bool)
  | tone (warnOnly : Bool) (explainFlag : Bool)
  | tts (explainFlag : Bool)
deriving DecidableEq, Repr

/-- `guard.__class__.__name__`. -/
def Guard.name : Guard → String
  | .pii _ _ => "PIIGuard"
  | .tone _ _ => "ToneGuard"
  | .tts _ => "TTSGuard"

def Guard.check : Guard → String → List Finding
  | .pii _ _ => PIIGuard.check
  | .tone _ _ => ToneGuard.check
  | .tts _ => TTSGuard.check

/-- The value of the attribute `guard.mask` at the time the manager
calls `guard.mask(text)`: a bound method for Tone and TTS guards, but
for PII guards the *boolean* constructor parameter, because
`PIIGuard.__init__` assigns `self.mask = mask`, shadowing the method. -/
inductive MaskAttr where
  | callable (f : String → String)
  | boolAttr (b : Bool)

def Guard.maskAttr : Guard → MaskAttr
  | .pii b _ => .boolAttr b
  | .tone _ _ => .callable ToneGuard.mask
  | .tts _ => .callable TTSGuard.mask

/-- Events the pipeline emits, in program order: an `audit_log` call
(one appended record: guard class name plus the finding's fields; the
timestamp is not modelled), an `explain_action` call, and an application
of `guard.mask` to the current text. -/
inductive Event where
  | auditEntry (guard : String) (f : Finding)
  | explainCall (guard : String) (f : Finding)
  | maskApplied (guard : String)
deriving DecidableEq, Repr

/-- Calling a non-callable (`PIIGuard`'s shadowed boolean `mask`
attribute) raises `TypeError` and aborts `run`. -/
inductive RunError where
  | maskNotCallable
deriving DecidableEq, Repr

/-- The inner loop of `GuardManager.run` for one guard: for each finding
(computed once, before any of this guard's masking), append an audit
record, call `explain_action`, then call `guard.mask` on the *current*
text and continue with its result. -/
def processFindings (g : Guard) : List Finding → String → List Event × Except RunError String
  | [], t => ([], .ok t)
  | f :: rest, t =>
    match g.maskAttr with
    | .callable fn =>
      (.auditEntry g.name f :: .explainCall g.name f :: .maskApplied g.name ::
        (processFindings g rest (fn t)).1,
       (processFindings g rest (fn t)).2)
    | .boolAttr _ =>
      ([.auditEntry g.name f, .explainCall g.name f], .error .maskNotCallable)

/-- `GuardManager.run`: fold the guards in list order over the text,
collecting the event trace; an exception aborts the whole run. -/
def runGuards : List Guard → String → List Event × Except RunError String
  | [], t => ([], .ok t)
  | g :: gs, t =>
    match processFindings g (g.check t) t with
    | (evs, .ok t2) => (evs ++ (runGuards gs t2).1, (runGuards gs t2).2)
    | (evs, .error e) => (evs, .error e)

/-- The audit records contained in an event trace. -/
def audits (evs : List Event) : List (String × Finding) :=
  evs.filterMap (fun e =>
    match e with
    | .auditEntry g f => some (g, f)
    | _ => none)

/-! ## Policy engine (`policy.py`)

Python `dict`s (guard slots, metadata, the loaded-policy registry) are
modelled as association lists without duplicate keys, with insertion
keeping the original position of an existing key and appending new
keys, exactly as CPython dicts behave. -/

/-- `d[k] = v` on a Python dict. -/
def dictInsert {α : Type} (d : List (String × α)) (k : String) (v : α) :
    List (String × α) :=
  if (d.lookup k).isSome then
    d.map (fun p => if p.1 = k then (k, v) else p)
  else d ++ [(k, v)]

/-- `base.update(upd)` on Python dicts (a fresh copy is made by the
callers before updating, so this is functional). -/
def dictUpdate {α : Type} (base upd : List (String × α)) : List (String × α) :=
  upd.foldl (fun acc p => dictInsert acc p.1 p.2) base

/-- `PolicyAction` enum. -/
inductive PolicyAction where
  | block
  | warn
  | mask
  | log_only
  | audit
deriving DecidableEq, Repr

/-- `PolicyAction(value)`: the `.value` string of each member. -/
def PolicyAction.value : PolicyAction → String
  | .block => "block"
  | .warn => "warn"
  | .mask => "mask"
  | .log_only => "log_only"
  | .audit => "audit"

/-- `PolicySeverity` enum. -/
inductive PolicySeverity where
  | low
  | medium
  | high
  | critical
deriving DecidableEq, Repr

def PolicySeverity.value : PolicySeverity → String
  | .low => "low"
  | .medium => "medium"
  | .high => "high"
  | .critical => "critical"

/-- Values of the open `metadata` / `custom_config` maps (the values the
repository actually stores are strings and booleans). -/
inductive MetaVal where
  | strV (s : String)
  | boolV (b : Bool)
deriving DecidableEq, Repr

/-- Dataclass `GuardPolicy`.  `threshold` is a Python float holding an
exact decimal; modelled as `Rat`. -/
structure GuardPolicy where
  guard_type : String
  enabled : Bool
  action : PolicyAction
  severity : PolicySeverity
  threshold : Rat
  custom_config : List (String × MetaVal)
deriving DecidableEq, Repr

/-- Dataclass `PolicySet`. -/
structure PolicySet where
  name : String
  version : String
  description : String
  guards : List (String × GuardPolicy)
  metadata : List (String × MetaVal)
  parent_policy : Option String
deriving DecidableEq, Repr

/-- The built-in default policy built by
`PolicyManager._create_default_policy`. -/
def defaultPolicy : PolicySet :=
  { name := "default"
    version := "1.0.0"
    description := "Default SafeLayer policy set"
    guards :=
      [("pii", { guard_type := "pii", enabled := true, action := .mask,
                 severity := .high, threshold := ⟨9, 10, by decide, by decide⟩, custom_config := [] }),
       ("tone", { guard_type := "tone", enabled := true, action := .warn,
                  severity := .medium, threshold := ⟨7, 10, by decide, by decide⟩, custom_config := [] }),
       ("tts", { guard_type := "tts", enabled := true, action := .block,
                 severity := .critical, threshold := ⟨4, 5, by decide, by decide⟩, custom_config := [] })]
    metadata := [("created_by", .strV "SafeLayer"), ("auto_generated", .boolV true)]
    parent_policy := none }

/-- One entry of the parsed `guards` mapping of a policy file: the keys
`guard_config.get(...)` reads, `none` when absent. -/
structure RawGuardConfig where
  guard_type : Option String
  enabled : Option Bool
  action : Option String
  severity : Option String
  threshold : Option Rat
  custom_config : Option (List (String × MetaVal))
deriving DecidableEq, Repr

/-- The parsed top-level mapping of a policy file (output of
`yaml.safe_load` / `json.load`), with `none` for absent keys.  A YAML
`null` and an absent key both read back as `None`, so both are `none`. -/
structure RawPolicySet where
  name : Option String
  version : Option String
  description : Option String
  guards : Option (List (String × RawGuardConfig))
  metadata : Option (List (String × MetaVal))
  parent_policy : Option String
deriving DecidableEq, Repr

/-- What `load_policy` observes about the file it is given: whether the
path exists, the path's suffix and stem, and the parsed document. -/
structure PolicyFile where
  fileExists : Bool
  suffix : String
  stem : String
  data : RawPolicySet
deriving DecidableEq, Repr

/-- The exceptions `load_policy` can raise:
`FileNotFoundError`, `ValueError` for an unsupported suffix, and the
`ValueError` raised by `PolicyAction(...)` / `PolicySeverity(...)` on an
unrecognized enum value. -/
inductive LoadError where
  | fileNotFound
  | unsupportedFormat (suffix : String)
  | invalidEnum (value : String)
deriving DecidableEq, Repr

/-- `PolicyAction(s)`: raises `ValueError` unless `s` is a member value. -/
def parsePolicyAction (s : String) : Except LoadError PolicyAction :=
  if s = "block" then .ok .block
  else if s = "warn" then .ok .warn
  else if s = "mask" then .ok .mask
  else if s = "log_only" then .ok .log_only
  else if s = "audit" then .ok .audit
  else .error (.invalidEnum s)

/-- `PolicySeverity(s)`. -/
def parsePolicySeverity (s : String) : Except LoadError PolicySeverity :=
  if s = "low" then .ok .low
  else if s = "medium" then .ok .medium
  else if s = "high" then .ok .high
  else if s = "critical" then .ok .critical
  else .error (.invalidEnum s)

/-- One iteration of the guard-conversion loop in `load_policy`
(defaults per `guard_config.get`: the slot key, `True`, `'block'`,
`'medium'`, `0.8`, `{}`).  The constructor arguments are evaluated in
call order, so an invalid action raises before an invalid severity. -/
def buildGuardPolicy (slot : String) (gc : RawGuardConfig) :
    Except LoadError GuardPolicy :=
  match parsePolicyAction (gc.action.getD "block") with
  | .error e => .error e
  | .ok act =>
    match parsePolicySeverity (gc.severity.getD "medium") with
    | .error e => .error e
    | .ok sev =>
      .ok { guard_type := gc.guard_type.getD slot
            enabled := gc.enabled.getD true
            action := act
            severity := sev
            threshold := gc.threshold.getD ⟨4, 5, by decide, by decide⟩
            custom_config := gc.custom_config.getD [] }

/-- The guard-conversion loop: items in file order, first invalid enum
aborts the load. -/
def buildGuards : List (String × RawGuardConfig) →
    Except LoadError (List (String × GuardPolicy))
  | [] => .ok []
  | (slot, gc) :: rest =>
    match buildGuardPolicy slot gc with
    | .error e => .error e
    | .ok g =>
      match buildGuards rest with
      | .error e => .error e
      | .ok gs => .ok ((slot, g) :: gs)

/-- ASCII `str.lower`, for the suffix comparison. -/
def lowerStr (s : String) : String := ⟨s.data.map Char.toLower⟩

/-- The mutable state of a `PolicyManager`: the loaded registry and the
active-policy reference.  (`config_dir` plays no role in the embedded
operations.) -/
structure ManagerState where
  loaded_policies : List (String × PolicySet)
  active_policy : Option PolicySet
deriving DecidableEq, Repr

/-- The state right after `PolicyManager.__init__` (which runs
`_create_default_policy`). -/
def initialState : ManagerState :=
  { loaded_policies := [("default", defaultPolicy)]
    active_policy := some defaultPolicy }

/-- `PolicyManager._merge_policies`. -/
def _merge_policies (parent child : PolicySet) : PolicySet :=
  { name := child.name
    version := child.version
    description := child.description
    guards := dictUpdate parent.guards child.guards
    metadata := dictInsert (dictUpdate parent.metadata child.metadata)
      "inherited_from" (.strV parent.name)
    parent_policy := child.parent_policy }

/-- Is the (lower-cased) suffix one of the supported formats
(`.yaml`, `.yml`, `.json`)? -/
def suffixOk (file : PolicyFile) : Bool :=
  lowerStr file.suffix = ".yaml" || lowerStr file.suffix = ".yml" ||
    lowerStr file.suffix = ".json"

/-- The parsed `PolicySet` before inheritance resolution (top-level
defaults per `data.get`: the path stem, `'1.0.0'`, `''`, `{}`, `{}`,
`None`). -/
def rawToPolicy (file : PolicyFile) (guards : List (String × GuardPolicy)) : PolicySet :=
  { name := file.data.name.getD file.stem
    version := file.data.version.getD "1.0.0"
    description := file.data.description.getD ""
    guards := guards
    metadata := file.data.metadata.getD []
    parent_policy := file.data.parent_policy }

/-- Inheritance resolution in `load_policy`: the Python truthiness test
`if policy.parent_policy` skips the merge for `None` and for the empty
string, and the merge only happens when the parent is already loaded. -/
def resolveParent (st : ManagerState) (policy : PolicySet) : PolicySet :=
  match policy.parent_policy with
  | some p =>
    if p ≠ "" then
      match st.loaded_policies.lookup p with
      | some parent => _merge_policies parent policy
      | none => policy
    else policy
  | none => policy

/-- `PolicyManager.load_policy`.  Returns the new manager state plus the
returned `PolicySet`, or the raised error. -/
def load_policy (st : ManagerState) (file : PolicyFile) :
    Except LoadError (ManagerState × PolicySet) :=
  if file.fileExists = false then .error .fileNotFound
  else if suffixOk file = false then .error (.unsupportedFormat file.suffix)
  else
    match buildGuards (file.data.guards.getD []) with
    | .error e => .error e
    | .ok guards =>
      let policy := resolveParent st (rawToPolicy file guards)
      .ok ({ st with
              loaded_policies := dictInsert st.loaded_policies policy.name policy },
           policy)

/-- The per-guard mapping `save_policy` writes for one guard slot
(enums as their `.value` strings, every key present). -/
def saveGuardData (g : GuardPolicy) : RawGuardConfig :=
  { guard_type := some g.guard_type
    enabled := some g.enabled
    action := some g.action.value
    severity := some g.severity.value
    threshold := some g.threshold
    custom_config := some g.custom_config }

/-- The document `PolicyManager.save_policy` writes for a policy (every
top-level key explicitly present); the YAML dump/parse round trip is
assumed faithful, so this is also what a subsequent `load_policy`
parses from the saved file. -/
def savePolicyData (p : PolicySet) : RawPolicySet :=
  { name := some p.name
    version := some p.version
    description := some p.description
    guards := some (p.guards.map (fun ng => (ng.1, saveGuardData ng.2)))
    metadata := some p.metadata
    parent_policy := p.parent_policy }

/-- The file `save_policy policy` produces (default filename
`{policy.name}.yaml`), as `load_policy` would observe it. -/
def savedFile (p : PolicySet) : PolicyFile :=
  { fileExists := true
    suffix := ".yaml"
    stem := p.name
    data := savePolicyData p }

/-- `PolicyManager.get_active_policy` (re-creates and activates the
default policy when no policy is active). -/
def get_active_policy (st : ManagerState) : ManagerState × PolicySet :=
  match st.active_policy with
  | some p => (st, p)
  | none =>
    ({ loaded_policies := dictInsert st.loaded_policies "default" defaultPolicy
       active_policy := some defaultPolicy }, defaultPolicy)

/-- The single-quote character U+0027 (used by the issue messages of
`validate_policy`). -/
def squote : String := ⟨[Char.ofNat 39]⟩

/-- `PolicyManager.validate_policy`: a total function returning all
issues (it cannot raise).  The f-string `f"Guard '{guard_name}' ..."`
is built by concatenation around `squote`. -/
def validate_policy (p : PolicySet) : List String :=
  (if p.name = "" then ["Policy name is required"] else []) ++
  (if p.version = "" then ["Policy version is required"] else []) ++
  p.guards.flatMap (fun ng =>
    (if ng.2.guard_type = "" then
      ["Guard " ++ squote ++ ng.1 ++ squote ++ " missing guard_type"] else []) ++
    (if ng.2.threshold < 0 ∨ ng.2.threshold > 1 then
      ["Guard " ++ squote ++ ng.1 ++ squote ++ " threshold must be between 0 and 1"]
     else []))

/-- A policy whose single guard slot has `threshold = 1.5` (one of the
spec's test vectors for `validate`). -/
def thresholdOutOfRangePolicy : PolicySet :=
  { name := "p"
    version := "1.0.0"
    description := ""
    guards := [("g", { guard_type := "tone", enabled := true, action := .block,
                       severity := .medium, threshold := ⟨3, 2, by decide, by decide⟩,
                       custom_config := [] })]
    metadata := []
    parent_policy := none }

/-- A policy whose `parent_policy` names the always-loaded `"default"`
policy (for the save/load round-trip scenario). -/
def roundTripChildExample : PolicySet :=
  { name := "child", version := "1.0.0", description := "", guards := [],
    metadata := [], parent_policy := some "default" }

/-- A parsed policy file with one guard slot `"g"` whose threshold is
the given value and whose other keys are valid and explicit. -/
def thresholdFile (r : Rat) : PolicyFile :=
  { fileExists := true
    suffix := ".json"
    stem := "t"
    data := { name := some "t", version := some "1", description := some "",
              guards := some [("g", { guard_type := some "g", enabled := some true,
                                      action := some "block", severity := some "medium",
                                      threshold := some r, custom_config := some [] })],
              metadata := some [], parent_policy := none } }

/-- The policy `load_policy` builds from `thresholdFile r`. -/
def thresholdFilePolicy (r : Rat) : PolicySet :=
  { name := "t", version := "1", description := ""
    guards := [("g", { guard_type := "g", enabled := true, action := .block,
                       severity := .medium, threshold := r, custom_config := [] })]
    metadata := [], parent_policy := none }

/-- A concrete guard slot `A` for the merge-precedence scenario. -/
def mergeGuardA : GuardPolicy :=
  { guard_type := "pii", enabled := true, action := .block, severity := .high,
    threshold := ⟨9, 10, by decide, by decide⟩, custom_config := [] }

/-- A concrete guard slot `B` (the child's overriding `pii` entry). -/
def mergeGuardB : GuardPolicy :=
  { guard_type := "pii", enabled := false, action := .warn, severity := .low,
    threshold := ⟨1, 2, by decide, by decide⟩, custom_config := [] }

/-- A concrete guard slot `C` (the child's `tone` entry). -/
def mergeGuardC : GuardPolicy :=
  { guard_type := "tone", enabled := true, action := .mask, severity := .medium,
    threshold := ⟨3, 10, by decide, by decide⟩, custom_config := [] }

/-- A concrete parent policy with slots `pii → A` and `tts`-only extras. -/
def mergeParentExample : PolicySet :=
  { name := "base", version := "1.0.0", description := "parent",
    guards := [("pii", mergeGuardA),
               ("tts", { guard_type := "tts", enabled := true, action := .block,
                         severity := .critical, threshold := ⟨4, 5, by decide, by decide⟩,
                         custom_config := [] })],
    metadata := [("owner", .strV "ops")], parent_policy := none }

/-- A concrete child policy with slots `pii → B` and `tone → C`. -/
def mergeChildExample : PolicySet :=
  { name := "child", version := "2.0.0", description := "child",
    guards := [("pii", mergeGuardB), ("tone", mergeGuardC)],
    metadata := [("team", .strV "safety")], parent_policy := some "base" }

/-!
# Theorems

First the generic lemmas about the scanners and the association-list
dictionaries, then one theorem (plus witness / counterexample) per
specified claim.
-/

theorem takeRun_le_length (p : Char → Bool) (cs : List Char) :
    takeRun p cs ≤ cs.length := by
  induction cs with
  | nil => simp [takeRun]
  | cons c cs ih =>
    simp only [takeRun, List.length_cons]
    split <;> omega

theorem lastGoodDot_lt_length (cs : List Char) (i : Nat)
    (h : lastGoodDot cs = some i) : i < cs.length := by
  induction cs generalizing i with
  | nil => simp [lastGoodDot] at h
  | cons c rest ih =>
    simp only [lastGoodDot] at h
    rcases hr : lastGoodDot rest with _ | j
    · rw [hr] at h
      simp at h
      simp [List.length_cons]
      omega
    · rw [hr] at h
      simp at h
      have := ih j hr
      simp [List.length_cons]
      omega

/-! ## Matchers produce in-bounds matches -/

theorem takeWhile_length_le (p : Char → Bool) (cs : List Char) :
    (cs.takeWhile p).length ≤ cs.length := by
  induction cs with
  | nil => simp
  | cons c rest ih =>
    rw [List.takeWhile]
    rcases p c with _ | _
    · simp
    · simp
      omega

theorem emailTail_le (runB : List Char) (t : Nat) (h : emailTail runB = some t) :
    t ≤ runB.length := by
  unfold emailTail at h
  split at h
  · rename_i i hd
    have hi := lastGoodDot_lt_length runB i hd
    have ht := takeRun_le_length isWordChar (runB.drop (i + 1))
    rw [List.length_drop] at ht
    split at h
    · simp at h
      omega
    · simp at h
  · simp at h

theorem emailMatcher_le (p : Option Char) (l : List Char) (n : Nat)
    (h : emailMatcher p l = some n) : n ≤ l.length := by
  unfold emailMatcher at h
  simp only [beq_iff_eq] at h
  split at h
  · simp at h
  · rename_i ha
    split at h
    · rename_i rest hdrop
      rcases he : emailTail (rest.takeWhile isEmailChar) with _ | t <;> rw [he] at h
      · simp at h
      · simp at h
        have h1 : t ≤ (rest.takeWhile isEmailChar).length := emailTail_le _ _ he
        have h2 : (rest.takeWhile isEmailChar).length ≤ rest.length :=
          takeWhile_length_le _ _
        have h3 : takeRun isEmailChar l ≤ l.length := takeRun_le_length _ _
        have h4 : (l.drop (takeRun isEmailChar l)).length = rest.length + 1 := by
          rw [hdrop]; simp
        rw [List.length_drop] at h4
        omega
    · simp at h

theorem phoneMatcher_le (p : Option Char) (l : List Char) (n : Nat)
    (h : phoneMatcher p l = some n) : n ≤ l.length := by
  unfold phoneMatcher at h
  split at h
  · rename_i hc
    simp at h
    simp only [Bool.and_assoc, Bool.and_eq_true, beq_iff_eq] at hc
    have : (l.take 10).length = 10 := hc.2.1
    rw [List.length_take] at this
    omega
  · simp at h

theorem isProfWord_length (w : List Char) (h : isProfWord w = true) : w.length = 4 := by
  unfold isProfWord at h
  simp only [Bool.or_eq_true, beq_iff_eq] at h
  rcases h with ((h | h) | h) | h <;> subst h <;> rfl

theorem toneMatcher_le (p : Option Char) (l : List Char) (n : Nat)
    (h : toneMatcher p l = some n) : n ≤ l.length := by
  unfold toneMatcher at h
  split at h
  · rename_i hc
    simp at h
    simp only [Bool.and_assoc, Bool.and_eq_true] at hc
    have h4 := isProfWord_length _ hc.2.1
    rw [List.length_map, List.length_take] at h4
    omega
  · simp at h

theorem startsScript_length (ci : Bool) (cs : List Char)
    (h : startsScript ci cs = true) : 6 ≤ cs.length := by
  unfold startsScript at h
  rw [beq_iff_eq] at h
  have : ((cs.take 6).map (fun c => if ci then c.toLower else c)).length =
      ("script".data).length := by rw [h]
  rw [List.length_map, List.length_take] at this
  simp at this
  omega

theorem ttsTail_le (ci : Bool) (cs : List Char) (n : Nat)
    (h : ttsTail ci cs = some n) : n ≤ cs.length := by
  induction cs generalizing n with
  | nil => simp [ttsTail] at h
  | cons c rest ih =>
    rw [ttsTail] at h
    have hlit : ∀ hl : (if startsScript ci (c :: rest) then some 6 else none) = some n,
        n ≤ (c :: rest).length := by
      intro hl
      by_cases hs : startsScript ci (c :: rest) = true
      · rw [if_pos hs] at hl
        have := startsScript_length ci (c :: rest) hs
        simp at hl
        omega
      · rw [if_neg hs] at hl
        simp at hl
    rcases hbe : (c == '>') with _ | _ <;> rw [hbe] at h
    · simp only [Bool.false_eq_true, if_false] at h
      rcases ht : ttsTail ci rest with _ | j <;> rw [ht] at h
      · exact hlit h
      · have hn : j + 1 = n := Option.some.inj h
        have := ih j ht
        simp only [List.length_cons]
        omega
    · exact hlit h

theorem ttsScriptMatcher_le (ci : Bool) (p : Option Char) (l : List Char) (n : Nat)
    (h : ttsScriptMatcher ci p l = some n) : n ≤ l.length := by
  unfold ttsScriptMatcher at h
  split at h
  · rename_i rest
    simp at h
    obtain ⟨j, hj, rfl⟩ := h
    have := ttsTail_le ci rest j hj
    simp
    omega
  · simp at h

theorem nonAsciiMatcher_le (p : Option Char) (l : List Char) (n : Nat)
    (h : nonAsciiMatcher p l = some n) : n ≤ l.length := by
  unfold nonAsciiMatcher at h
  have := takeRun_le_length isNonAsciiChar l
  split at h
  · simp at h
  · rename_i k hk
    simp at h
    omega

/-! ## Scanner lemmas -/

/-- Every span `finditer` emits lies between the scan origin and the end
of the text, with positive width, provided the matcher never claims more
characters than remain. -/
theorem finditerAux_mem_bounds (m : Matcher)
    (hm : ∀ p l n, m p l = some n → n ≤ l.length) :
    ∀ (cs : List Char) (skip : Nat) (prev : Option Char) (pos s e : Nat),
      (s, e) ∈ finditerAux m skip prev cs pos →
      pos ≤ s ∧ s < e ∧ e ≤ pos + cs.length := by
  intro cs
  induction cs with
  | nil => intro skip prev pos s e h; simp [finditerAux] at h
  | cons c rest ih =>
    intro skip prev pos s e h
    match skip with
    | skip + 1 =>
      have := ih skip (some c) (pos + 1) s e h
      simp only [List.length_cons]
      omega
    | 0 =>
      rw [finditerAux] at h
      cases hm2 : m prev (c :: rest) with
      | none =>
        rw [hm2] at h
        have := ih 0 (some c) (pos + 1) s e h
        simp only [List.length_cons]
        omega
      | some k =>
        cases k with
        | zero =>
          rw [hm2] at h
          have := ih 0 (some c) (pos + 1) s e h
          simp only [List.length_cons]
          omega
        | succ n =>
          rw [hm2] at h
          have hb := hm prev (c :: rest) (n + 1) hm2
          simp only [List.length_cons] at hb
          have h2 : (s, e) = (pos, pos + (n + 1)) ∨
              (s, e) ∈ finditerAux m n (some c) rest (pos + 1) := List.mem_cons.1 h
          rcases h2 with h2 | h2
          · simp only [Prod.mk.injEq] at h2
            simp only [List.length_cons]
            omega
          · have := ih n (some c) (pos + 1) s e h2
            simp only [List.length_cons]
            omega

/-- If `finditer` finds nothing (scanning from a clean state), `sub`
returns the text unchanged. -/
theorem subAux_of_finditer_nil (m : Matcher) (repl : List Char) :
    ∀ (cs : List Char) (prev : Option Char) (pos : Nat),
      finditerAux m 0 prev cs pos = [] → subAux m repl 0 prev cs = cs := by
  intro cs
  induction cs with
  | nil => intro prev pos _; rfl
  | cons c rest ih =>
    intro prev pos h
    rw [finditerAux] at h
    rw [subAux]
    cases hm2 : m prev (c :: rest) with
    | none =>
      rw [hm2] at h
      exact congrArg (c :: ·) (ih (some c) (pos + 1) h)
    | some k =>
      cases k with
      | zero =>
        rw [hm2] at h
        exact congrArg (c :: ·) (ih (some c) (pos + 1) h)
      | succ n =>
        rw [hm2] at h
        exact absurd h (List.cons_ne_nil _ _)

/-- If a matcher `m2` can only succeed where `m1` does, then `m2` finds
nothing wherever `m1` finds nothing. -/
theorem finditer_nil_of_imp (m1 m2 : Matcher)
    (h : ∀ p l n, m2 p l = some (n + 1) → ∃ k, m1 p l = some (k + 1)) :
    ∀ (cs : List Char) (prev : Option Char) (pos1 pos2 : Nat),
      finditerAux m1 0 prev cs pos1 = [] → finditerAux m2 0 prev cs pos2 = [] := by
  intro cs
  induction cs with
  | nil => intro prev pos1 pos2 _; rfl
  | cons c rest ih =>
    intro prev pos1 pos2 h1
    rw [finditerAux] at h1
    rw [finditerAux]
    have step : finditerAux m1 0 (some c) rest (pos1 + 1) = [] →
        finditerAux m2 0 (some c) rest (pos2 + 1) = [] :=
      ih (some c) (pos1 + 1) (pos2 + 1)
    cases hm1 : m1 prev (c :: rest) with
    | none =>
      rw [hm1] at h1
      cases hm2 : m2 prev (c :: rest) with
      | none => exact step h1
      | some k =>
        cases k with
        | zero => exact step h1
        | succ j =>
          obtain ⟨i2, hi2⟩ := h prev (c :: rest) j hm2
          rw [hm1] at hi2
          simp at hi2
    | some k =>
      cases k with
      | zero =>
        rw [hm1] at h1
        cases hm2 : m2 prev (c :: rest) with
        | none => exact step h1
        | some k2 =>
          cases k2 with
          | zero => exact step h1
          | succ j =>
            obtain ⟨i2, hi2⟩ := h prev (c :: rest) j hm2
            rw [hm1] at hi2
            simp at hi2
      | succ n =>
        rw [hm1] at h1
        exact absurd h1 (List.cons_ne_nil _ _)

/-! ## Dictionary lemmas -/

theorem lookup_cons_eq {α : Type} (k : String) (p : String × α) (rest : List (String × α))
    (h : k = p.1) : List.lookup k (p :: rest) = some p.2 := by
  rw [List.lookup]
  have hb : (k == p.1) = true := by simp [h]
  rw [hb]

theorem lookup_cons_ne {α : Type} (k : String) (p : String × α) (rest : List (String × α))
    (h : k ≠ p.1) : List.lookup k (p :: rest) = List.lookup k rest := by
  rw [List.lookup]
  have hb : (k == p.1) = false := by simp [h]
  rw [hb]

theorem lookup_dictInsert_self {α : Type} (d : List (String × α)) (k : String) (v : α) :
    (dictInsert d k v).lookup k = some v := by
  unfold dictInsert
  split
  · rename_i hs
    induction d with
    | nil => simp at hs
    | cons p rest ih =>
      rw [List.map_cons]
      by_cases hk : p.1 = k
      · rw [if_pos hk]
        exact lookup_cons_eq k (k, v) _ rfl
      · rw [if_neg hk]
        rw [lookup_cons_ne k p _ (fun hc => hk hc.symm)]
        apply ih
        rw [lookup_cons_ne k p _ (fun hc => hk hc.symm)] at hs
        exact hs
  · rename_i hs
    have hl : d.lookup k = none := by
      rcases hln : d.lookup k with _ | w
      · rfl
      · rw [hln] at hs
        simp at hs
    clear hs
    induction d with
    | nil => exact lookup_cons_eq k (k, v) [] rfl
    | cons p rest ih =>
      have hk : k ≠ p.1 := by
        intro hc
        rw [lookup_cons_eq k p rest hc] at hl
        simp at hl
      rw [List.cons_append, lookup_cons_ne k p _ hk]
      apply ih
      rw [lookup_cons_ne k p rest hk] at hl
      exact hl

theorem lookup_dictInsert_ne {α : Type} (d : List (String × α)) (k k2 : String) (v : α)
    (h : k2 ≠ k) : (dictInsert d k v).lookup k2 = d.lookup k2 := by
  unfold dictInsert
  split
  · rename_i hs
    clear hs
    induction d with
    | nil => simp
    | cons p rest ih =>
      rw [List.map_cons]
      by_cases hk : p.1 = k
      · rw [if_pos hk]
        rw [lookup_cons_ne k2 (k, v) _ h]
        rw [lookup_cons_ne k2 p _ (by rw [hk]; exact h)]
        exact ih
      · rw [if_neg hk]
        by_cases hk2 : k2 = p.1
        · rw [lookup_cons_eq k2 p _ hk2, lookup_cons_eq k2 p _ hk2]
        · rw [lookup_cons_ne k2 p _ hk2, lookup_cons_ne k2 p _ hk2]
          exact ih
  · rename_i hs
    clear hs
    induction d with
    | nil =>
      rw [List.nil_append, lookup_cons_ne k2 (k, v) [] h]
    | cons p rest ih =>
      by_cases hk2 : k2 = p.1
      · rw [List.cons_append, lookup_cons_eq k2 p _ hk2, lookup_cons_eq k2 p _ hk2]
      · rw [List.cons_append, lookup_cons_ne k2 p _ hk2, lookup_cons_ne k2 p _ hk2]
        exact ih

theorem lookup_eq_none_of_not_mem_keys {α : Type} (d : List (String × α)) (k : String)
    (h : k ∉ d.map Prod.fst) : d.lookup k = none := by
  induction d with
  | nil => rfl
  | cons p rest ih =>
    simp only [List.map_cons, List.mem_cons] at h
    push_neg at h
    rw [lookup_cons_ne k p rest h.1]
    exact ih h.2

theorem lookup_dictUpdate_of_none {α : Type} (upd : List (String × α)) :
    ∀ (base : List (String × α)) (k : String), upd.lookup k = none →
      (dictUpdate base upd).lookup k = base.lookup k := by
  induction upd with
  | nil => intro base k _; rfl
  | cons p rest ih =>
    intro base k h
    have hk : k ≠ p.1 := by
      intro hc
      rw [lookup_cons_eq k p rest hc] at h
      simp at h
    rw [lookup_cons_ne k p rest hk] at h
    unfold dictUpdate at ih ⊢
    rw [List.foldl_cons]
    rw [ih (dictInsert base p.1 p.2) k h]
    exact lookup_dictInsert_ne base p.1 k p.2 hk

theorem lookup_dictUpdate_of_some {α : Type} (upd : List (String × α)) :
    ∀ (base : List (String × α)) (k : String) (v : α),
      (upd.map Prod.fst).Nodup → upd.lookup k = some v →
      (dictUpdate base upd).lookup k = some v := by
  induction upd with
  | nil => intro base k v _ h; simp [List.lookup] at h
  | cons p rest ih =>
    intro base k v hnd h
    simp only [List.map_cons, List.nodup_cons] at hnd
    unfold dictUpdate at ih ⊢
    rw [List.foldl_cons]
    by_cases hk : k = p.1
    · rw [lookup_cons_eq k p rest hk] at h
      have hrest : rest.lookup p.1 = none :=
        lookup_eq_none_of_not_mem_keys rest p.1 hnd.1
      have hnone := lookup_dictUpdate_of_none rest (dictInsert base p.1 p.2) p.1 hrest
      unfold dictUpdate at hnone
      rw [hk, hnone, lookup_dictInsert_self base p.1 p.2]
      exact h
    · rw [lookup_cons_ne k p rest hk] at h
      exact ih (dictInsert base p.1 p.2) k v hnd.2 h

/-! ## Claim C9 -/

/-- C9: for every guard list and every input text on which every
guard's `check` returns no findings (including the empty string),
`GuardManager.run` returns the input string unchanged, emits no events
at all (in particular appends zero audit entries), and succeeds. -/
theorem claim_C9 (gs : List Guard) (t : String)
    (h : ∀ g ∈ gs, g.check t = []) : runGuards gs t = ([], .ok t) := by
  induction gs with
  | nil => rfl
  | cons g rest ih =>
    have hg : g.check t = [] := h g (List.mem_cons_self g rest)
    have hrest := ih (fun g2 hg2 => h g2 (List.mem_cons_of_mem g hg2))
    rw [runGuards, hg]
    simp [processFindings, hrest]

/-- Witness for C9: a pipeline of all three guards over the empty
string finds nothing and returns it unchanged with no audit entries. -/
theorem claim_C9_witness :
    (∀ g ∈ [Guard.pii true false, Guard.tone true false, Guard.tts false],
      Guard.check g "" = []) ∧
    runGuards [Guard.pii true false, Guard.tone true false, Guard.tts false] "" =
      ([], .ok "") :=
  ⟨by decide, claim_C9 _ _ (by decide)⟩

/-! ## Claim C8 -/

/-- C8: `validate_policy` is total (it cannot raise) and returns the
violations found: the name/version presence issues exactly when those
fields are empty, one issue naming the slot for every guard entry with
an empty guard type and one for every out-of-range threshold; it
returns `[]` on the built-in default policy, `[]` on any compliant
policy, and a non-empty list mentioning the offending slot when a
threshold is `1.5`. -/
theorem claim_C8 :
    validate_policy defaultPolicy = [] ∧
    (∀ P : PolicySet, P.name = "" → "Policy name is required" ∈ validate_policy P) ∧
    (∀ P : PolicySet, P.version = "" → "Policy version is required" ∈ validate_policy P) ∧
    (∀ P : PolicySet, ∀ slot g, (slot, g) ∈ P.guards → g.guard_type = "" →
      ("Guard " ++ squote ++ slot ++ squote ++ " missing guard_type") ∈
        validate_policy P) ∧
    (∀ P : PolicySet, ∀ slot g, (slot, g) ∈ P.guards →
      (g.threshold < 0 ∨ g.threshold > 1) →
      ("Guard " ++ squote ++ slot ++ squote ++ " threshold must be between 0 and 1") ∈
        validate_policy P) ∧
    (∀ P : PolicySet, P.name ≠ "" → P.version ≠ "" →
      (∀ slot g, (slot, g) ∈ P.guards →
        g.guard_type ≠ "" ∧ 0 ≤ g.threshold ∧ g.threshold ≤ 1) →
      validate_policy P = []) ∧
    validate_policy thresholdOutOfRangePolicy ≠ [] ∧
    ("Guard " ++ squote ++ "g" ++ squote ++ " threshold must be between 0 and 1") ∈
      validate_policy thresholdOutOfRangePolicy := by
  refine ⟨by decide, ?_, ?_, ?_, ?_, ?_, by decide, by decide⟩
  · intro P h
    unfold validate_policy
    rw [if_pos h]
    exact List.mem_append.2 (Or.inl (List.mem_append.2 (Or.inl (List.mem_singleton.2 rfl))))
  · intro P h
    unfold validate_policy
    rw [if_pos h]
    exact List.mem_append.2 (Or.inl (List.mem_append.2 (Or.inr (List.mem_singleton.2 rfl))))
  · intro P slot g hmem hg
    unfold validate_policy
    refine List.mem_append.2 (Or.inr ?_)
    refine List.mem_flatMap.2 ⟨(slot, g), hmem, ?_⟩
    refine List.mem_append.2 (Or.inl ?_)
    rw [if_pos hg]
    exact List.mem_singleton.2 rfl
  · intro P slot g hmem ht
    unfold validate_policy
    refine List.mem_append.2 (Or.inr ?_)
    refine List.mem_flatMap.2 ⟨(slot, g), hmem, ?_⟩
    refine List.mem_append.2 (Or.inr ?_)
    rw [if_pos ht]
    exact List.mem_singleton.2 rfl
  · intro P hn hv hg
    unfold validate_policy
    rw [if_neg hn, if_neg hv]
    simp only [List.nil_append]
    refine List.flatMap_eq_nil_iff.2 ?_
    intro x hx
    obtain ⟨h1, h2, h3⟩ := hg x.1 x.2 hx
    rw [if_neg h1, if_neg (not_or.2 ⟨not_lt.2 h2, not_lt.2 h3⟩)]
    rfl

/-- Witness for C8: the missing-name issue appears on a policy whose
name is empty. -/
theorem claim_C8_witness :
    "Policy name is required" ∈ validate_policy
      { name := "", version := "1.0.0", description := "", guards := [],
        metadata := [], parent_policy := none } :=
  claim_C8.2.1 _ rfl

/-! ## Claim C6 -/

/-- C6: `_merge_policies` gives child precedence on every guard-slot
collision, passes parent-only slots through, overlays the parent's
metadata with the child's and then sets `inherited_from` to the
parent's name, and takes name, version, description and parent_policy
from the child. -/
theorem claim_C6 (parent child : PolicySet) (A B C : GuardPolicy)
    (hng : (child.guards.map Prod.fst).Nodup)
    (hnm : (child.metadata.map Prod.fst).Nodup)
    (_hpA : parent.guards.lookup "pii" = some A)
    (hcB : child.guards.lookup "pii" = some B)
    (hcC : child.guards.lookup "tone" = some C) :
    (_merge_policies parent child).guards.lookup "pii" = some B ∧
    (_merge_policies parent child).guards.lookup "tone" = some C ∧
    (∀ k, child.guards.lookup k = none →
      (_merge_policies parent child).guards.lookup k = parent.guards.lookup k) ∧
    (_merge_policies parent child).metadata.lookup "inherited_from" =
      some (.strV parent.name) ∧
    (∀ k, k ≠ "inherited_from" →
      (_merge_policies parent child).metadata.lookup k =
        (match child.metadata.lookup k with
         | some v => some v
         | none => parent.metadata.lookup k)) ∧
    (_merge_policies parent child).name = child.name ∧
    (_merge_policies parent child).version = child.version ∧
    (_merge_policies parent child).description = child.description ∧
    (_merge_policies parent child).parent_policy = child.parent_policy := by
  refine ⟨?_, ?_, ?_, ?_, ?_, rfl, rfl, rfl, rfl⟩
  · exact lookup_dictUpdate_of_some child.guards parent.guards "pii" B hng hcB
  · exact lookup_dictUpdate_of_some child.guards parent.guards "tone" C hng hcC
  · intro k hk
    exact lookup_dictUpdate_of_none child.guards parent.guards k hk
  · exact lookup_dictInsert_self (dictUpdate parent.metadata child.metadata)
      "inherited_from" (MetaVal.strV parent.name)
  · intro k hk
    unfold _merge_policies
    rw [lookup_dictInsert_ne _ "inherited_from" k _ hk]
    cases hc : child.metadata.lookup k with
    | some v => exact lookup_dictUpdate_of_some child.metadata parent.metadata k v hnm hc
    | none => exact lookup_dictUpdate_of_none child.metadata parent.metadata k hc

/-- Witness for C6: child precedence on the `pii` slot for concrete
parent/child policies. -/
theorem claim_C6_witness :
    (_merge_policies mergeParentExample mergeChildExample).guards.lookup "pii" =
      some mergeGuardB :=
  (claim_C6 mergeParentExample mergeChildExample mergeGuardA mergeGuardB mergeGuardC
    (by decide) (by decide) (by decide) (by decide) (by decide)).1

/-! ## Round-trip lemmas for save/load -/

theorem buildGuardPolicy_save (slot : String) (g : GuardPolicy) :
    buildGuardPolicy slot (saveGuardData g) = .ok g := by
  obtain ⟨gt, en, ac, sv, th, cc⟩ := g
  cases ac <;> cases sv <;> rfl

theorem buildGuards_save (gs : List (String × GuardPolicy)) :
    buildGuards (gs.map (fun ng => (ng.1, saveGuardData ng.2))) = .ok gs := by
  induction gs with
  | nil => rfl
  | cons ng rest ih =>
    obtain ⟨slot, g⟩ := ng
    rw [List.map_cons]
    rw [buildGuards, buildGuardPolicy_save slot g, ih]

/-! ## Claim C10 -/

/-- C10: a successful `load_policy` changes at most the registry entry
keyed by the loaded policy's name — every other `loaded_policies` entry
and the `active_policy` reference are unchanged — so the policy
`get_active_policy` returns is the same object as before the load, even
when the loaded policy's name collides with the active policy's. -/
theorem claim_C10 (st : ManagerState) (file : PolicyFile) (st2 : ManagerState)
    (p : PolicySet) (h : load_policy st file = .ok (st2, p)) :
    st2.active_policy = st.active_policy ∧
    (∀ k, k ≠ p.name → st2.loaded_policies.lookup k = st.loaded_policies.lookup k) ∧
    (∀ a, st.active_policy = some a → get_active_policy st2 = (st2, a)) := by
  unfold load_policy at h
  by_cases h1 : file.fileExists = false
  · rw [if_pos h1] at h
    exact absurd h (by simp)
  · rw [if_neg h1] at h
    by_cases h2 : suffixOk file = false
    · rw [if_pos h2] at h
      exact absurd h (by simp)
    · rw [if_neg h2] at h
      cases hbg : buildGuards (file.data.guards.getD []) with
      | error e =>
        rw [hbg] at h
        exact absurd h (by simp)
      | ok guards =>
        rw [hbg] at h
        injection h with h3
        injection h3 with hst hp
        have hact : st2.active_policy = st.active_policy := by
          rw [← hst]
        have hload : st2.loaded_policies = dictInsert st.loaded_policies p.name p := by
          rw [← hst, ← hp]
        refine ⟨hact, ?_, ?_⟩
        · intro k hk
          rw [hload]
          exact lookup_dictInsert_ne st.loaded_policies p.name k p hk
        · intro a ha
          unfold get_active_policy
          rw [hact, ha]

/-- Witness for C10: loading a concrete policy file over the initial
manager state leaves the active policy reference unchanged. -/
theorem claim_C10_witness :
    ({ initialState with loaded_policies := dictInsert initialState.loaded_policies "t" (thresholdFilePolicy ⟨4, 5, by decide, by decide⟩) } : ManagerState).active_policy = initialState.active_policy :=
  (claim_C10 initialState (thresholdFile ⟨4, 5, by decide, by decide⟩) _ _ rfl).1

/-! ## Claim C4 (corrected) -/

/-- C4 as amended: `load_policy` raises the not-found error when the
path does not exist, the format error for an unrecognized extension,
and the `ValueError` of `PolicyAction`/`PolicySeverity` for an invalid
enum value in the file — all distinct, catchable errors — but an
out-of-range threshold is *not* an error: the load succeeds and stores
the threshold unchanged (only `validate_policy` reports it). -/
theorem claim_C4_amended :
    (∀ (st : ManagerState) (file : PolicyFile), file.fileExists = false →
      load_policy st file = .error .fileNotFound) ∧
    (∀ (st : ManagerState) (file : PolicyFile), file.fileExists = true →
      suffixOk file = false →
      load_policy st file = .error (.unsupportedFormat file.suffix)) ∧
    (∀ s : String, s ∉ (["block", "warn", "mask", "log_only", "audit"] : List String) →
      parsePolicyAction s = .error (.invalidEnum s)) ∧
    (∀ s : String, s ∉ (["low", "medium", "high", "critical"] : List String) →
      parsePolicySeverity s = .error (.invalidEnum s)) ∧
    (∀ (st : ManagerState) (file : PolicyFile) (slot : String) (gc : RawGuardConfig)
        (s : String), file.fileExists = true → suffixOk file = true →
      file.data.guards = some [(slot, gc)] → gc.action = some s →
      parsePolicyAction s = .error (.invalidEnum s) →
      load_policy st file = .error (.invalidEnum s)) ∧
    (∀ (r : Rat) (st : ManagerState),
      load_policy st (thresholdFile r) =
        .ok ({ st with loaded_policies :=
                dictInsert st.loaded_policies "t" (thresholdFilePolicy r) },
             thresholdFilePolicy r)) := by
  refine ⟨?_, ?_, ?_, ?_, ?_, ?_⟩
  · intro st file h
    unfold load_policy
    rw [if_pos h]
  · intro st file h1 h2
    unfold load_policy
    rw [if_neg (by simp [h1]), if_pos h2]
  · intro s hs
    simp only [List.mem_cons, List.not_mem_nil, or_false, not_or] at hs
    obtain ⟨h1, h2, h3, h4, h5⟩ := hs
    unfold parsePolicyAction
    rw [if_neg h1, if_neg h2, if_neg h3, if_neg h4, if_neg h5]
  · intro s hs
    simp only [List.mem_cons, List.not_mem_nil, or_false, not_or] at hs
    obtain ⟨h1, h2, h3, h4⟩ := hs
    unfold parsePolicySeverity
    rw [if_neg h1, if_neg h2, if_neg h3, if_neg h4]
  · intro st file slot gc s h1 h2 h3 h4 h5
    have hbp : buildGuardPolicy slot gc = .error (.invalidEnum s) := by
      unfold buildGuardPolicy
      rw [h4, Option.getD_some, h5]
    have hbg : buildGuards (file.data.guards.getD []) = .error (.invalidEnum s) := by
      rw [h3, Option.getD_some, buildGuards, hbp]
    unfold load_policy
    rw [if_neg (by simp [h1]), if_neg (by simp [h2]), hbg]
  · intro r st
    rfl

/-- Witness for C4: loading a missing file raises the not-found error. -/
theorem claim_C4_witness :
    load_policy initialState
      { fileExists := false, suffix := ".yaml", stem := "x",
        data := { name := none, version := none, description := none,
                  guards := none, metadata := none, parent_policy := none } } =
      .error .fileNotFound :=
  claim_C4_amended.1 initialState _ rfl

/-- Counterexample for C4 as stated: a policy file with the
out-of-range threshold `1.5` loads *successfully* (no error is raised)
and the threshold is stored unchanged. -/
theorem claim_C4_counterexample :
    (match load_policy initialState (thresholdFile ⟨3, 2, by decide, by decide⟩) with
     | .ok _ => true
     | .error _ => false) = true ∧
    (match load_policy initialState (thresholdFile ⟨3, 2, by decide, by decide⟩) with
     | .ok r => (r.2.guards.lookup "g").map GuardPolicy.threshold
     | .error _ => none) = some (⟨3, 2, by decide, by decide⟩ : Rat) := by
  exact ⟨rfl, rfl⟩

/-! ## Claim C5 (corrected) -/

/-- C5 as amended: the save/load round trip reproduces every field of
the policy exactly — no `inherited_from` marker or any other change —
*provided* the policy's `parent_policy` is absent, empty, or not a
loaded policy name at load time; otherwise `load_policy` runs the
inheritance merge on the reloaded policy (overlaying the parent's
guards and metadata), and the result is not equal to `P`. -/
theorem claim_C5_amended (st : ManagerState) (P : PolicySet)
    (h : ∀ pp, P.parent_policy = some pp →
      pp = "" ∨ st.loaded_policies.lookup pp = none) :
    load_policy st (savedFile P) =
      .ok ({ st with loaded_policies := dictInsert st.loaded_policies P.name P }, P) := by
  have hg : buildGuards ((savedFile P).data.guards.getD []) = .ok P.guards :=
    buildGuards_save P.guards
  have hres : resolveParent st (rawToPolicy (savedFile P) P.guards) = P := by
    have hraw : rawToPolicy (savedFile P) P.guards = P := rfl
    rw [hraw]
    unfold resolveParent
    cases hpp : P.parent_policy with
    | none => rfl
    | some pp =>
      rcases h pp hpp with he | hn
      · subst he
        simp
      · by_cases hpe : pp = ""
        · subst hpe
          simp
        · simp [hpe, hn]
  unfold load_policy
  rw [show (savedFile P).fileExists = true from rfl,
      if_neg (by decide : ¬ (true = false)),
      show suffixOk (savedFile P) = true from rfl,
      if_neg (by decide : ¬ (true = false)), hg]
  simp only [hres]

/-- Witness for C5: a concrete policy without a loaded parent
round-trips exactly through save and load. -/
theorem claim_C5_witness :
    load_policy initialState (savedFile mergeParentExample) =
      .ok ({ initialState with loaded_policies := dictInsert initialState.loaded_policies mergeParentExample.name mergeParentExample },
           mergeParentExample) :=
  claim_C5_amended initialState mergeParentExample
    (fun _ hpp => Option.noConfusion hpp)

/-- Counterexample for C5 as stated: for a policy whose
`parent_policy` is the always-loaded `"default"`, `load(save(P))`
differs from `P` beyond any `inherited_from` marker — the reloaded
policy's `guards` contain the parent's `pii` slot, which `P` does not
have. -/
theorem claim_C5_counterexample :
    (match load_policy initialState (savedFile roundTripChildExample) with
     | .ok r => r.2.guards.lookup "pii"
     | .error _ => none) = defaultPolicy.guards.lookup "pii" ∧
    defaultPolicy.guards.lookup "pii" ≠ none ∧
    roundTripChildExample.guards.lookup "pii" = none := by
  refine ⟨rfl, by decide, rfl⟩

/-! ## Claim C1 (the end-to-end scenario) -/

/-- C1: the specified end-to-end scenario crashes instead.  On
`"Email me at foo@bar.com. This is crap."` through
`[PIIGuard(), ToneGuard()]`, the PII guard finds the email address and
one audit record is appended, but the subsequent `guard.mask(text)`
call raises `TypeError`, because `PIIGuard.__init__` stored the boolean
constructor parameter in `self.mask`, shadowing the `mask` method.  The
run aborts with one audit entry, not two, and returns no masked text. -/
theorem claim_C1 :
    runGuards [Guard.pii true false, Guard.tone true false]
      "Email me at foo@bar.com. This is crap." =
      ([.auditEntry "PIIGuard"
          { entity := "email", span := some (12, 23), pattern := none,
            explanation := "EMAIL: foo@bar.com @ (12, 23)" },
        .explainCall "PIIGuard"
          { entity := "email", span := some (12, 23), pattern := none,
            explanation := "EMAIL: foo@bar.com @ (12, 23)" }],
       .error .maskNotCallable) := by
  rfl

/-! ## Claim C2 (corrected) -/

/-- For a guard whose `mask` attribute is callable, the inner loop
writes an audit record, calls `explain_action` and applies `mask` once
*per finding*, so the final text is the `n`-fold iterate of `mask`. -/
theorem processFindings_callable (g : Guard) (fn : String → String)
    (hfn : g.maskAttr = .callable fn) :
    ∀ (fs : List Finding) (t : String),
      processFindings g fs t =
        (fs.flatMap (fun f =>
          [.auditEntry g.name f, .explainCall g.name f, .maskApplied g.name]),
         .ok (fn^[fs.length] t)) := by
  intro fs
  induction fs with
  | nil => intro t; rfl
  | cons f rest ih =>
    intro t
    rw [processFindings, hfn]
    simp only [ih (fn t), List.flatMap_cons, List.length_cons,
      Function.iterate_succ_apply, List.cons_append, List.nil_append]

/-- C2 as amended: `GuardManager.run` processes guards in list order;
for the current guard it computes `check` once on the current text and
then, for *each* finding, writes one audit record, invokes
`explain_action` and applies the guard's mask to the current text — so
`mask` runs once per finding (`n` times for `n` findings), not exactly
once per guard, and the next guard receives the `n`-fold iterate.
(For a PII guard, whose `mask` attribute is a boolean, the first
finding aborts the run instead; see C1.) -/
theorem claim_C2_amended (g : Guard) (gs : List Guard) (t : String)
    (fn : String → String) (hfn : g.maskAttr = .callable fn) :
    runGuards (g :: gs) t =
      ((g.check t).flatMap (fun f =>
          [.auditEntry g.name f, .explainCall g.name f, .maskApplied g.name]) ++
        (runGuards gs (fn^[(g.check t).length] t)).1,
       (runGuards gs (fn^[(g.check t).length] t)).2) := by
  rw [runGuards]
  rw [processFindings_callable g fn hfn (g.check t) t]

/-- Witness for C2: the tone guard pipeline on `"This is crap."`. -/
theorem claim_C2_witness :
    runGuards [Guard.tone true false] "This is crap." =
      (((Guard.tone true false).check "This is crap.").flatMap (fun f =>
          [.auditEntry (Guard.tone true false).name f,
           .explainCall (Guard.tone true false).name f,
           .maskApplied (Guard.tone true false).name]) ++
        (runGuards []
          (ToneGuard.mask^[((Guard.tone true false).check "This is crap.").length]
            "This is crap.")).1,
       (runGuards []
          (ToneGuard.mask^[((Guard.tone true false).check "This is crap.").length]
            "This is crap.")).2) :=
  claim_C2_amended (Guard.tone true false) [] "This is crap." ToneGuard.mask rfl

/-- Counterexample for C2 as stated: on `"<xscript<ascréipt"` the TTS
guard's `check` returns two findings, and the run applies `mask` twice
(two `maskApplied` events); the final text `""` differs from the single
application `TTSGuard.mask "<xscript<ascréipt" = "<ascript"` that the
claim's once-per-guard algorithm would produce. -/
theorem claim_C2_counterexample :
    ((Guard.tts false).check "<xscript<ascréipt").length = 2 ∧
    (runGuards [Guard.tts false] "<xscript<ascréipt").2 = .ok "" ∧
    TTSGuard.mask "<xscript<ascréipt" = "<ascript" ∧
    ("" : String) ≠ "<ascript" ∧
    ((runGuards [Guard.tts false] "<xscript<ascréipt").1.filter (fun e =>
      match e with
      | .maskApplied _ => true
      | _ => false)).length = 2 := by
  exact ⟨by decide, rfl, rfl, by decide, by decide⟩

/-! ## Claim C3 (corrected) -/

/-- Every PII finding carries a span with valid offsets. -/
theorem piiCheck_span (t : String) (f : Finding) (hf : f ∈ PIIGuard.check t) :
    ∃ s e, f.span = some (s, e) ∧ s < e ∧ e ≤ t.length := by
  unfold PIIGuard.check at hf
  rcases List.mem_append.1 hf with h | h
  · obtain ⟨se, hse, rfl⟩ := List.mem_map.1 h
    have hb := finditerAux_mem_bounds emailMatcher emailMatcher_le t.data 0 none 0
      se.1 se.2 hse
    exact ⟨se.1, se.2, rfl, hb.2.1, by simpa using hb.2.2⟩
  · obtain ⟨se, hse, rfl⟩ := List.mem_map.1 h
    have hb := finditerAux_mem_bounds phoneMatcher phoneMatcher_le t.data 0 none 0
      se.1 se.2 hse
    exact ⟨se.1, se.2, rfl, hb.2.1, by simpa using hb.2.2⟩

/-- Every Tone finding carries a span with valid offsets. -/
theorem toneCheck_span (t : String) (f : Finding) (hf : f ∈ ToneGuard.check t) :
    ∃ s e, f.span = some (s, e) ∧ s < e ∧ e ≤ t.length := by
  unfold ToneGuard.check at hf
  obtain ⟨se, hse, rfl⟩ := List.mem_map.1 hf
  have hb := finditerAux_mem_bounds toneMatcher toneMatcher_le t.data 0 none 0
    se.1 se.2 hse
  exact ⟨se.1, se.2, rfl, hb.2.1, by simpa using hb.2.2⟩

/-- TTS findings carry no offsets at all. -/
theorem ttsCheck_nospan (t : String) (f : Finding) (hf : f ∈ TTSGuard.check t) :
    f.span = none := by
  unfold TTSGuard.check at hf
  rcases List.mem_append.1 hf with h | h
  · split at h
    · rw [List.mem_singleton.1 h]
    · simp at h
  · split at h
    · rw [List.mem_singleton.1 h]
    · simp at h

/-- Each audit record the inner loop writes is for one of the passed
findings, tagged with the guard's class name. -/
theorem processFindings_audit (g : Guard) :
    ∀ (fs : List Finding) (t : String) (gname : String) (f : Finding),
      Event.auditEntry gname f ∈ (processFindings g fs t).1 →
      gname = g.name ∧ f ∈ fs := by
  intro fs
  induction fs with
  | nil => intro t gname f h; simp [processFindings] at h
  | cons f0 rest ih =>
    intro t gname f h
    rw [processFindings] at h
    cases hma : g.maskAttr with
    | callable fn =>
      rw [hma] at h
      have h2 : Event.auditEntry gname f = Event.auditEntry g.name f0 ∨
          Event.auditEntry gname f = Event.explainCall g.name f0 ∨
          Event.auditEntry gname f = Event.maskApplied g.name ∨
          Event.auditEntry gname f ∈ (processFindings g rest (fn t)).1 := by
        simpa using h
      rcases h2 with h2 | h2 | h2 | h2
      · injection h2 with e1 e2
        exact ⟨e1, by rw [e2]; exact List.mem_cons_self f0 rest⟩
      · exact absurd h2 (by simp)
      · exact absurd h2 (by simp)
      · have := ih (fn t) gname f h2
        exact ⟨this.1, List.mem_cons_of_mem f0 this.2⟩
    | boolAttr b =>
      rw [hma] at h
      have h2 : Event.auditEntry gname f = Event.auditEntry g.name f0 ∨
          Event.auditEntry gname f = Event.explainCall g.name f0 := by
        simpa using h
      rcases h2 with h2 | h2
      · injection h2 with e1 e2
        exact ⟨e1, by rw [e2]; exact List.mem_cons_self f0 rest⟩
      · exact absurd h2 (by simp)

/-- Every audit record in a run's trace records a finding that some
guard of the pipeline's `check` produced on some intermediate text (the
current text at detection time). -/
theorem audits_from_check :
    ∀ (gs : List Guard) (t : String) (gname : String) (f : Finding),
      Event.auditEntry gname f ∈ (runGuards gs t).1 →
      ∃ g u, g ∈ gs ∧ gname = g.name ∧ f ∈ g.check u := by
  intro gs
  induction gs with
  | nil => intro t gname f h; simp [runGuards] at h
  | cons g rest ih =>
    intro t gname f h
    rw [runGuards] at h
    cases hpf : processFindings g (g.check t) t with
    | mk evs r2 =>
      rw [hpf] at h
      cases r2 with
      | ok t2 =>
        rcases List.mem_append.1 h with h2 | h2
        · have hev : Event.auditEntry gname f ∈ (processFindings g (g.check t) t).1 := by
            rw [hpf]
            exact h2
          have := processFindings_audit g (g.check t) t gname f hev
          exact ⟨g, t, List.mem_cons_self g rest, this.1, this.2⟩
        · obtain ⟨g2, u, hg2, he, hf2⟩ := ih t2 gname f h2
          exact ⟨g2, u, List.mem_cons_of_mem g hg2, he, hf2⟩
      | error e =>
        have hev : Event.auditEntry gname f ∈ (processFindings g (g.check t) t).1 := by
          rw [hpf]
          exact h
        have := processFindings_audit g (g.check t) t gname f hev
        exact ⟨g, t, List.mem_cons_self g rest, this.1, this.2⟩

/-- C3 as amended: every finding returned by `PIIGuard.check` or
`ToneGuard.check` carries start/end offsets with
`0 ≤ start < end ≤ len(text)` against the text `check` received, and
every audit record in a run's trace contains (verbatim) a finding that
some guard's `check` produced on the then-current text; however
`TTSGuard.check` findings carry *no* start/end offsets, so their audit
records lack them, contrary to the claim. -/
theorem claim_C3_amended :
    (∀ (t : String) (f : Finding), f ∈ PIIGuard.check t →
      ∃ s e, f.span = some (s, e) ∧ s ≤ e ∧ e ≤ t.length) ∧
    (∀ (t : String) (f : Finding), f ∈ ToneGuard.check t →
      ∃ s e, f.span = some (s, e) ∧ s ≤ e ∧ e ≤ t.length) ∧
    (∀ (t : String) (f : Finding), f ∈ TTSGuard.check t → f.span = none) ∧
    (∀ (gs : List Guard) (t : String) (gname : String) (f : Finding),
      Event.auditEntry gname f ∈ (runGuards gs t).1 →
      ∃ g u, g ∈ gs ∧ gname = g.name ∧ f ∈ g.check u) := by
  refine ⟨?_, ?_, ttsCheck_nospan, audits_from_check⟩
  · intro t f hf
    obtain ⟨s, e, h1, h2, h3⟩ := piiCheck_span t f hf
    exact ⟨s, e, h1, Nat.le_of_lt h2, h3⟩
  · intro t f hf
    obtain ⟨s, e, h1, h2, h3⟩ := toneCheck_span t f hf
    exact ⟨s, e, h1, Nat.le_of_lt h2, h3⟩

/-- Witness for C3: the email finding on `"a@b.c"` has a valid span. -/
theorem claim_C3_witness :
    ∃ s e, ({ entity := "email", span := some (0, 5), pattern := none, explanation := "EMAIL: a@b.c @ (0, 5)" } : Finding).span = some (s, e) ∧
      s ≤ e ∧ e ≤ ("a@b.c" : String).length :=
  claim_C3_amended.1 "a@b.c" _ (by decide)

/-- Counterexample for C3 as stated: `TTSGuard.check "é"` returns a
finding with no `start`/`end` keys at all (`span = none`), so neither
the finding nor its audit record satisfies
`0 <= start <= end <= len(text)`. -/
theorem claim_C3_counterexample :
    TTSGuard.check "é" =
      [{ entity := "invalid_tts", span := none, pattern := some TTSGuard.pattern1,
         explanation := "Invalid pattern matched: " ++ TTSGuard.pattern1 }] ∧
    (TTSGuard.check "é").map Finding.span = [none] := by
  exact ⟨rfl, rfl⟩

/-! ## Claim C7 (corrected) -/

theorem reSearch_false_finditer (m : Matcher) (s : String)
    (h : reSearch m s = false) : reFinditer m s = [] := by
  unfold reSearch at h
  rcases hl : reFinditer m s with _ | ⟨p, l⟩
  · rfl
  · rw [hl] at h
    simp at h

/-- An empty PII check means neither regex matched anywhere. -/
theorem piiCheck_nil (s : String) (h : PIIGuard.check s = []) :
    reFinditer emailMatcher s = [] ∧ reFinditer phoneMatcher s = [] := by
  unfold PIIGuard.check at h
  rw [List.append_eq_nil] at h
  obtain ⟨h1, h2⟩ := h
  rw [List.map_eq_nil_iff] at h1 h2
  exact ⟨h1, h2⟩

theorem piiMask_id_of_check_nil (s : String) (h : PIIGuard.check s = []) :
    PIIGuard.mask s = s := by
  obtain ⟨he, hp⟩ := piiCheck_nil s h
  show String.mk (subAux phoneMatcher "[PHONE MASKED]".data 0 none
    (subAux emailMatcher "[EMAIL MASKED]".data 0 none s.data)) = s
  rw [subAux_of_finditer_nil emailMatcher "[EMAIL MASKED]".data s.data none 0 he]
  rw [subAux_of_finditer_nil phoneMatcher "[PHONE MASKED]".data s.data none 0 hp]

theorem toneMask_id_of_check_nil (s : String) (h : ToneGuard.check s = []) :
    ToneGuard.mask s = s := by
  unfold ToneGuard.check at h
  rw [List.map_eq_nil_iff] at h
  show String.mk (subAux toneMatcher "****".data 0 none s.data) = s
  rw [subAux_of_finditer_nil toneMatcher "****".data s.data none 0 h]

/-- An empty TTS check means neither pattern search succeeded. -/
theorem ttsCheck_nil (s : String) (h : TTSGuard.check s = []) :
    reSearch (ttsScriptMatcher true) s = false ∧ reSearch nonAsciiMatcher s = false := by
  unfold TTSGuard.check at h
  rw [List.append_eq_nil] at h
  obtain ⟨h1, h2⟩ := h
  constructor
  · cases hb : reSearch (ttsScriptMatcher true) s with
    | false => rfl
    | true =>
      rw [if_pos hb] at h1
      simp at h1
  · cases hb : reSearch nonAsciiMatcher s with
    | false => rfl
    | true =>
      rw [if_pos hb] at h2
      simp at h2

/-- A case-sensitive `script` literal is also a case-insensitive one. -/
theorem startsScript_ci_of_cs (cs : List Char) (h : startsScript false cs = true) :
    startsScript true cs = true := by
  unfold startsScript at h ⊢
  rw [beq_iff_eq] at h ⊢
  have hmap : (cs.take 6).map (fun c => if false then c.toLower else c) = cs.take 6 := by
    simp
  rw [hmap] at h
  rw [h]
  rfl

/-- Wherever the case-sensitive `[^>]*script` tail matches, the
case-insensitive one does too. -/
theorem ttsTail_ci_of_cs (cs : List Char) :
    ∀ n, ttsTail false cs = some n → ∃ k, ttsTail true cs = some k := by
  induction cs with
  | nil => intro n h; simp [ttsTail] at h
  | cons c rest ih =>
    intro n h
    rw [ttsTail] at h
    rw [ttsTail]
    by_cases hbe : c = '>'
    · have hb : (c == '>') = true := by simp [hbe]
      rw [hb] at h ⊢
      rw [if_pos rfl] at h ⊢
      cases hS : startsScript false (c :: rest) with
      | false =>
        rw [hS] at h
        simp at h
      | true =>
        have hS2 := startsScript_ci_of_cs _ hS
        refine ⟨6, ?_⟩
        simp [hS2]
    · have hb : (c == '>') = false := by simp [hbe]
      rw [hb] at h ⊢
      rw [if_neg (by decide : ¬ (false = true))] at h ⊢
      cases ht : ttsTail false rest with
      | none =>
        rw [ht] at h
        cases hS : startsScript false (c :: rest) with
        | false =>
          rw [hS] at h
          simp at h
        | true =>
          have hS2 := startsScript_ci_of_cs _ hS
          cases htt : ttsTail true rest with
          | none =>
            refine ⟨6, ?_⟩
            simp [hS2]
          | some k =>
            exact ⟨k + 1, rfl⟩
      | some j =>
        rw [ht] at h
        obtain ⟨k, hk⟩ := ih j ht
        rw [hk]
        exact ⟨k + 1, rfl⟩

/-- Wherever the case-sensitive TTS script matcher succeeds, the
case-insensitive one does too. -/
theorem ttsMatcher_ci_of_cs :
    ∀ (p : Option Char) (l : List Char) (n : Nat),
      ttsScriptMatcher false p l = some (n + 1) →
      ∃ k, ttsScriptMatcher true p l = some (k + 1) := by
  intro p l n h
  unfold ttsScriptMatcher at h ⊢
  split at h
  · rename_i rest
    simp only [Option.map_eq_some'] at h
    obtain ⟨j, hj, hjn⟩ := h
    obtain ⟨k, hk⟩ := ttsTail_ci_of_cs rest j hj
    rw [hk]
    exact ⟨k, rfl⟩
  · simp at h

theorem ttsMask_id_of_check_nil (s : String) (h : TTSGuard.check s = []) :
    TTSGuard.mask s = s := by
  obtain ⟨h1, h2⟩ := ttsCheck_nil s h
  have hf1 : reFinditer (ttsScriptMatcher true) s = [] := reSearch_false_finditer _ _ h1
  have hf2 : reFinditer nonAsciiMatcher s = [] := reSearch_false_finditer _ _ h2
  have hf1cs : finditerAux (ttsScriptMatcher false) 0 none s.data 0 = [] :=
    finditer_nil_of_imp (ttsScriptMatcher true) (ttsScriptMatcher false)
      ttsMatcher_ci_of_cs s.data none 0 0 hf1
  show String.mk (subAux nonAsciiMatcher "".data 0 none
    (subAux (ttsScriptMatcher false) "".data 0 none s.data)) = s
  rw [subAux_of_finditer_nil (ttsScriptMatcher false) "".data s.data none 0 hf1cs]
  rw [subAux_of_finditer_nil nonAsciiMatcher "".data s.data none 0 hf2]

/-- C7 as amended: each guard's mask is idempotent when applied to text
on which a re-check finds no remaining violations of that guard's kind
(`check (mask t) = [] → mask (mask t) = mask t`); unrestricted
idempotence fails for `TTSGuard.mask` (see the counterexample).  For
the PII guard this concerns the class's `mask` method — instances
shadow it with a boolean (see C1). -/
theorem claim_C7_amended :
    (∀ t, PIIGuard.check (PIIGuard.mask t) = [] →
      PIIGuard.mask (PIIGuard.mask t) = PIIGuard.mask t) ∧
    (∀ t, ToneGuard.check (ToneGuard.mask t) = [] →
      ToneGuard.mask (ToneGuard.mask t) = ToneGuard.mask t) ∧
    (∀ t, TTSGuard.check (TTSGuard.mask t) = [] →
      TTSGuard.mask (TTSGuard.mask t) = TTSGuard.mask t) :=
  ⟨fun _ h => piiMask_id_of_check_nil _ h,
   fun _ h => toneMask_id_of_check_nil _ h,
   fun _ h => ttsMask_id_of_check_nil _ h⟩

/-- Witness for C7: the TTS mask output of `"<bscript ok"` re-checks
clean, so a second application changes nothing. -/
theorem claim_C7_witness :
    TTSGuard.mask (TTSGuard.mask "<bscript ok") = TTSGuard.mask "<bscript ok" :=
  claim_C7_amended.2.2 "<bscript ok" (by decide)

/-- Counterexample for C7 as stated: `TTSGuard.mask` is not idempotent.
On `"<ascréipt"` the first application removes only the non-ASCII
character (the case-sensitive `<[^>]*script` pattern does not match),
producing `"<ascript"`; the second application removes all of it. -/
theorem claim_C7_counterexample :
    TTSGuard.mask "<ascréipt" = "<ascript" ∧
    TTSGuard.mask (TTSGuard.mask "<ascréipt") = "" ∧
    TTSGuard.mask (TTSGuard.mask "<ascréipt") ≠ TTSGuard.mask "<ascréipt" := by
  refine ⟨rfl, rfl, by decide⟩

end SafeLayer
